import Mathlib

/-!
Verification development for `agenthub/codeact_swe_agent/codeact_swe_agent.py`
(CodeActSWEAgent).  Python strings are modelled as `List Char`; the regex
searches of `step` are modelled by explicit first/last-occurrence searches
matching the semantics of `re.search` with greedy (`.*`) and non-greedy
(`.*?`) bodies under `re.DOTALL`.
-/

namespace OpenHands

/-- Convert a string literal to the character-list representation used
throughout the development. -/
def chars (s : String) : List Char := s.toList

/-- Whitespace characters stripped by Python `str.strip()` (the ASCII set;
no character of the tag mini-language or of the claims is outside it). -/
def pyIsSpace (c : Char) : Bool :=
  c = ' ' || c = '\t' || c = '\n' || c = '\r' || c = '\x0b' || c = '\x0c'

/-- Python `s.strip()`: remove leading and trailing whitespace. -/
def pyStrip (s : List Char) : List Char :=
  ((s.dropWhile pyIsSpace).reverse.dropWhile pyIsSpace).reverse

/-- Python `s[i:j]` for `0 ≤ i ≤ j` (the only shape used by the regex
group extraction). -/
def slice (s : List Char) (i j : Nat) : List Char := (s.drop i).take (j - i)

/-- Python `s[-h:]`: for `h = 0` this is the WHOLE string (`s[-0:] = s[0:]`),
otherwise the last `h` characters (all of `s` when `h ≥ len(s)`). -/
def pyLastSlice (s : List Char) (h : Nat) : List Char :=
  if h = 0 then s else s.drop (s.length - h)

/-- Rendering of a Python `int` inside an f-string. -/
def intStr (n : Int) : List Char := (toString n).toList

/-- `occursAtB pat s i`: the pattern `pat` occurs in `s` starting at index `i`. -/
def occursAtB (pat s : List Char) (i : Nat) : Bool :=
  pat.isPrefixOf (s.drop i)

/-- Smallest `k < n` with `p k = true`, if any. -/
def firstBelow (p : Nat → Bool) : Nat → Option Nat
  | 0 => none
  | n + 1 =>
    match firstBelow p n with
    | some k => some k
    | none => if p n then some n else none

/-- Largest `k < n` with `p k = true`, if any. -/
def lastBelow (p : Nat → Bool) : Nat → Option Nat
  | 0 => none
  | n + 1 => if p n then some n else lastBelow p n

/-- Python `pat in s` (substring containment). -/
def containsSub (pat s : List Char) : Bool :=
  (firstBelow (occursAtB pat s) (s.length + 1)).isSome

/-- Semantics of `re.search(openT + body + closeT, s, re.DOTALL)` where the
body is `(.*)` (greedy, `greedy = true`) or `(.*?)` (non-greedy,
`greedy = false`): the match starts at the first occurrence of `openT`,
and the closing tag is the last (greedy) or first (non-greedy) occurrence
of `closeT` starting at or after the end of the opening tag.  Returns the
start index of the opening tag and the start index of the closing tag. -/
def searchPair (openT closeT : List Char) (greedy : Bool) (s : List Char) :
    Option (Nat × Nat) :=
  match firstBelow (occursAtB openT s) (s.length + 1) with
  | none => none
  | some i =>
    match (if greedy then
             lastBelow (fun j => occursAtB closeT s j && decide (i + openT.length ≤ j)) (s.length + 1)
           else
             firstBelow (fun j => occursAtB closeT s j && decide (i + openT.length ≤ j)) (s.length + 1)) with
    | none => none
    | some j => some (i, j)

/-- Fuel-driven core of Python `s.replace(pat, '')`: scan left to right,
deleting non-overlapping occurrences of `pat`.  The fuel is an upper bound
on the number of scanning steps; `pyReplaceEmpty` supplies `s.length`. -/
def pyReplaceEmptyAux (pat : List Char) : Nat → List Char → List Char
  | 0, s => s
  | _, [] => []
  | fuel + 1, c :: cs =>
    if pat.isPrefixOf (c :: cs) && !pat.isEmpty then
      pyReplaceEmptyAux pat fuel (cs.drop (pat.length - 1))
    else
      c :: pyReplaceEmptyAux pat fuel cs

/-- Python `s.replace(pat, '')`. -/
def pyReplaceEmpty (pat s : List Char) : List Char :=
  pyReplaceEmptyAux pat s.length s

/-! ### The tag mini-language -/

def bashOpen : List Char := chars "<execute_bash>"
def bashClose : List Char := chars "</execute_bash>"
def ipythonOpen : List Char := chars "<execute_ipython>"
def ipythonClose : List Char := chars "</execute_ipython>"
def browseOpen : List Char := chars "<execute_browse>"
def browseClose : List Char := chars "</execute_browse>"
def finishOpen : List Char := chars "<finish>"
def finishClose : List Char := chars "</finish>"

/-- Stop sequences passed to `self.llm.completion` in `step`. -/
def stopWords : List (List Char) :=
  [chars "</execute_ipython>", chars "</execute_bash>", chars "</execute_browse>"]

/-! ### Truncator (`truncate_observation`) -/

/-- The fixed omission marker inserted by `truncate_observation`. -/
def markerChars : List Char := chars "\n[... Observation truncated due to length ...]\n"

/-- `truncate_observation(observation, max_chars)`: identity when the text
fits, otherwise first `max_chars // 2` characters, the marker, and the
Python slice `observation[-half:]`.  The source default is
`max_chars = 10_000` (passed explicitly by the callers below). -/
def truncate_observation (observation : List Char) (maxChars : Nat) : List Char :=
  if observation.length ≤ maxChars then observation
  else
    observation.take (maxChars / 2) ++ markerChars ++ pyLastSlice observation (maxChars / 2)

/-! ### Response repair (`parse_response`) and classification (`step` lines 192-229) -/

/-- One iteration of the repair loop in `parse_response`: if the opening tag
occurs but the closing tag does not, append the closing tag. -/
def repairStep (openT closeT s : List Char) : List Char :=
  if containsSub openT s && !containsSub closeT s then s ++ closeT else s

/-- `parse_response`: extract the text and repair unterminated tags, in the
source order bash, ipython, browse. -/
def parse_response (action : List Char) : List Char :=
  repairStep browseOpen browseClose
    (repairStep ipythonOpen ipythonClose
      (repairStep bashOpen bashClose action))

/-- The `Action` objects `step` can return (`ParsedAction` of the spec). -/
inductive Action where
  | agentFinish (thought : List Char)
  | cmdRun (command : List Char) (thought : List Char)
  | ipythonRunCell (code : List Char) (thought : List Char) (kernelInitCode : List Char)
  | browseInteractive (browserActions : List Char) (thought : List Char)
  | message (content : List Char) (waitForResponse : Bool)
  deriving DecidableEq, Repr

/-- Discriminator: is this an `AgentFinishAction`? -/
def Action.isFinish : Action → Bool
  | .agentFinish _ => true
  | _ => false

/-- The classification cascade of `step` (lines 192-229), applied to the
repaired response text: finish, then bash (with the `exit` alias), then
ipython, then browse, else a `MessageAction` awaiting a reply.  A thought
is the text with the matched span replaced by the empty string
(`str.replace` replaces every occurrence), stripped. -/
def classify (kernelInitCode : List Char) (actionStr : List Char) : Action :=
  match searchPair finishOpen finishClose true actionStr with
  | some (i, j) =>
    Action.agentFinish
      (pyStrip (pyReplaceEmpty (slice actionStr i (j + finishClose.length)) actionStr))
  | none =>
    match searchPair bashOpen bashClose false actionStr with
    | some (i, j) =>
      let thought := pyStrip (pyReplaceEmpty (slice actionStr i (j + bashClose.length)) actionStr)
      let commandGroup := pyStrip (slice actionStr (i + bashOpen.length) j)
      if pyStrip commandGroup = chars "exit" then Action.agentFinish []
      else Action.cmdRun commandGroup thought
    | none =>
      match searchPair ipythonOpen ipythonClose false actionStr with
      | some (i, j) =>
        let codeGroup := pyStrip (slice actionStr (i + ipythonOpen.length) j)
        let thought := pyStrip (pyReplaceEmpty (slice actionStr i (j + ipythonClose.length)) actionStr)
        Action.ipythonRunCell codeGroup thought kernelInitCode
      | none =>
        match searchPair browseOpen browseClose true actionStr with
        | some (i, j) =>
          let browseActions := pyStrip (slice actionStr (i + browseOpen.length) j)
          let thought := pyStrip (pyReplaceEmpty (slice actionStr i (j + browseClose.length)) actionStr)
          Action.browseInteractive browseActions thought
        | none => Action.message actionStr true

/-- Repair followed by classification: the full path from raw model output
to the returned action. -/
def classifyFull (kernelInitCode : List Char) (raw : List Char) : Action :=
  classify kernelInitCode (parse_response raw)

/-- The matched span of the finish regex, as used for thought removal. -/
def finishSpan (s : List Char) : Option (List Char) :=
  (searchPair finishOpen finishClose true s).map
    (fun p => slice s p.1 (p.2 + finishClose.length))

/-! ### Events, message formatting and the history assembler -/

/-- Source attribution of a history event (`action.source`). -/
inductive Source where
  | user
  | agent
  deriving DecidableEq, Repr

/-- Message roles.  The source uses the strings 'system', 'user',
'assistant'. -/
inductive Role where
  | system
  | user
  | assistant
  deriving DecidableEq, Repr

/-- A `(role, content)` message dict. -/
structure Message where
  role : Role
  content : List Char
  deriving DecidableEq, Repr

/-- History actions as consumed by `get_action_message` / `action_to_str`.
`other` covers every action type those functions do not handle (for
example `AgentFinishAction`), for which they return `None` / `''`. -/
inductive EventAction where
  | cmdRun (source : Source) (thought : List Char) (command : List Char)
  | ipythonRunCell (source : Source) (thought : List Char) (code : List Char)
  | browseInteractive (source : Source) (thought : List Char) (browserActions : List Char)
  | message (source : Source) (content : List Char)
  | other
  deriving DecidableEq, Repr

/-- History observations as consumed by `get_observation_message`.  `other`
covers observation types it does not handle (returns `None`). -/
inductive Observation where
  | cmdOutput (content : List Char) (commandId : Int) (exitCode : Int)
  | ipythonOutput (content : List Char)
  | browserOutput (content : List Char)
  | other
  deriving DecidableEq, Repr

/-- A history event: an action or an observation. -/
inductive HistEvent where
  | action (a : EventAction)
  | observation (o : Observation)
  deriving DecidableEq, Repr

/-- `'user' if action.source == 'user' else 'assistant'`. -/
def roleOf (src : Source) : Role :=
  if src = Source.user then Role.user else Role.assistant

/-- `action_to_str`. -/
def actionToStr : EventAction → List Char
  | .cmdRun _ thought command =>
    thought ++ chars "\n<execute_bash>\n" ++ command ++ chars "\n</execute_bash>"
  | .ipythonRunCell _ thought code =>
    thought ++ chars "\n<execute_ipython>\n" ++ code ++ chars "\n</execute_ipython>"
  | .browseInteractive _ thought browserActions =>
    thought ++ chars "\n<execute_browse>\n" ++ browserActions ++ chars "\n</execute_browse>"
  | .message _ content => content
  | .other => []

/-- `get_action_message`. -/
def getActionMessage : EventAction → Option Message
  | .cmdRun src thought command =>
    some ⟨roleOf src, actionToStr (.cmdRun src thought command)⟩
  | .ipythonRunCell src thought code =>
    some ⟨roleOf src, actionToStr (.ipythonRunCell src thought code)⟩
  | .browseInteractive src thought browserActions =>
    some ⟨roleOf src, actionToStr (.browseInteractive src thought browserActions)⟩
  | .message src content => some ⟨roleOf src, actionToStr (.message src content)⟩
  | .other => none

/-- Split a text on the newline character (Python `content.split('\n')`). -/
def splitLines : List Char → List (List Char)
  | [] => [[]]
  | c :: cs =>
    let r := splitLines cs
    if c = '\n' then [] :: r
    else
      match r with
      | [] => [[c]]
      | h :: t => (c :: h) :: t

/-- The base64-image marker looked for in IPython observation lines. -/
def imageMarker : List Char := chars "![image](data:image/png;base64,"

/-- The placeholder substituted for a base64-image line. -/
def imagePlaceholder : List Char :=
  chars "![image](data:image/png;base64, ...) already displayed to user"

/-- `get_observation_message`. -/
def getObservationMessage : Observation → Option Message
  | .cmdOutput content commandId exitCode =>
    some ⟨Role.user,
      chars "OBSERVATION:\n" ++ truncate_observation content 10000 ++
        chars "\n[Command " ++ intStr commandId ++
        chars " finished with exit code " ++ intStr exitCode ++ chars "]]"⟩
  | .ipythonOutput content =>
    let withPrefixLine := chars "OBSERVATION:\n" ++ content
    let replaced :=
      (splitLines withPrefixLine).map
        (fun line => if containsSub imageMarker line then imagePlaceholder else line)
    some ⟨Role.user, truncate_observation (List.intercalate (chars "\n") replaced) 10000⟩
  | .browserOutput content =>
    some ⟨Role.user, chars "OBSERVATION:\n" ++ truncate_observation content 10000⟩
  | .other => none

/-- One history event to zero-or-one message (the dispatch in
`_get_messages`'s loop). -/
def formatEvent : HistEvent → Option Message
  | .action a => getActionMessage a
  | .observation o => getObservationMessage o

/-- The caller-owned `State` fields read or written by the agent. -/
structure State where
  history : List HistEvent
  iteration : Int
  maxIterations : Int
  numOfChars : Int
  deriving DecidableEq, Repr

/-- The agent's prompt configuration.  The concrete texts come from
`agenthub.codeact_swe_agent.prompt`, which is not part of this source;
they are opaque string values here. -/
structure CodeActSWEAgent where
  systemMessage : List Char
  inContextExample : List Char
  jupyterKernelInitCode : List Char
  deriving DecidableEq, Repr

/-- The environment-reminder line appended to the latest user message. -/
def reminderText (state : State) : List Char :=
  chars "\n\nENVIRONMENT REMINDER: You have " ++
    intStr (state.maxIterations - state.iteration) ++
    chars " turns left to complete the task."

/-- The message list before the reminder step: system message, in-context
example, then one message per handled history event. -/
def assembleMessages (agent : CodeActSWEAgent) (state : State) : List Message :=
  [⟨Role.system, agent.systemMessage⟩, ⟨Role.user, agent.inContextExample⟩] ++
    state.history.filterMap formatEvent

/-- Index of the last element satisfying `p` (the element Python's
`next(... reversed(...) ...)` returns, identified by position so that the
in-place content update can be modelled). -/
def lastIdxWhere (p : Message → Bool) (xs : List Message) : Option Nat :=
  match xs.reverse.findIdx? p with
  | none => none
  | some r => some (xs.length - 1 - r)

/-- `_get_messages`: assemble, then either return unchanged (no user
message, or the latest user message strips to `/exit`) or append the
reminder to the latest user message. -/
def getMessages (agent : CodeActSWEAgent) (state : State) : List Message :=
  let messages := assembleMessages agent state
  match lastIdxWhere (fun m => decide (m.role = Role.user)) messages with
  | none => messages
  | some k =>
    let m := messages.getD k ⟨Role.user, []⟩
    if pyStrip m.content = chars "/exit" then messages
    else messages.set k { m with content := m.content ++ reminderText state }

/-- The latest user message of a message list (`step` lines 171-173). -/
def latestUserMessage (messages : List Message) : Option Message :=
  messages.reverse.find? (fun m => decide (m.role = Role.user))

/-- The `/exit` short-circuit test of `step` (lines 174). -/
def wantsExit (messages : List Message) : Bool :=
  match latestUserMessage messages with
  | some m => decide (pyStrip m.content = chars "/exit")
  | none => false

/-- `step`.  The model client is an external collaborator: a function from
the sent messages and stop sequences to the raw response text
(`response.choices[0].message.content`); the fixed temperature 0.0 is part
of the call site, not of the exchanged data.  Returns the action and the
updated state (only `num_of_chars` is ever written). -/
def step (agent : CodeActSWEAgent)
    (llm : List Message → List (List Char) → List Char)
    (state : State) : Action × State :=
  let messages := getMessages agent state
  if wantsExit messages then (Action.agentFinish [], state)
  else
    let actionStr := parse_response (llm messages stopWords)
    let msgSum := (messages.map (fun m => m.content.length)).sum
    let state' := { state with
      numOfChars := state.numOfChars + (msgSum : Int) + (actionStr.length : Int) }
    (classify agent.jupyterKernelInitCode actionStr, state')

/-! ### Concrete inputs used to exercise the theorems -/

/-- A response text with two finish tag pairs. -/
def sTwoFinish : List Char := chars "<finish>a</finish>x<finish>b</finish>"

/-- A response text with two command tag pairs; only the second pair's body
trims to `exit`. -/
def sTwoBash : List Char :=
  chars "<execute_bash>ls</execute_bash><execute_bash>exit</execute_bash>"

/-- The plain exit-alias response. -/
def sExitBash : List Char := chars "<execute_bash>exit</execute_bash>"

/-- The exit alias surrounded by thought text. -/
def sExitThought : List Char := chars "ok <execute_bash> exit </execute_bash>"

/-- A response with both a finish pair and a command pair. -/
def sFinishAndBash : List Char :=
  chars "t <finish>done</finish> <execute_bash>ls</execute_bash>"

/-- An unterminated command tag, as produced by a stop sequence. -/
def sUnterminated : List Char := chars "<execute_bash>\nls -la"

/-- An opening command tag with no closing pair anywhere. -/
def sLoneOpen : List Char := chars "<execute_bash>hi"

/-- A small concrete agent configuration. -/
def agentA : CodeActSWEAgent := ⟨chars "SYS", chars "EXAMPLE", chars "K"⟩

/-- A state whose only history event is the user saying `/exit`. -/
def stateExit : State := ⟨[.action (.message .user (chars "/exit"))], 0, 5, 0⟩

/-- A state for the reminder example: last user message `fix the bug`,
`iteration = 2`, `max_iterations = 10`. -/
def stateReminder : State := ⟨[.action (.message .user (chars "fix the bug"))], 2, 10, 0⟩

/-- A state with empty history (the in-context example is then the latest
user message). -/
def stateEmpty : State := ⟨[], 0, 1, 0⟩

/-- A model client answering a fixed plain text. -/
def llmPlain : List Message → List (List Char) → List Char := fun _ _ => chars "zzz"

/-- A model client answering an unterminated command block, as happens when
generation halts at a stop sequence. -/
def llmUnterminated : List Message → List (List Char) → List Char :=
  fun _ _ => chars "<execute_bash>x"

/-! ### Helper lemmas about the occurrence searches -/

theorem isPrefixOf_length_le : ∀ p q : List Char, p.isPrefixOf q = true → p.length ≤ q.length := by
  intro p
  induction p with
  | nil => intro q _; simp
  | cons a as ih =>
    intro q h
    cases q with
    | nil => simp [List.isPrefixOf] at h
    | cons b bs =>
      simp only [List.isPrefixOf, Bool.and_eq_true] at h
      have := ih bs h.2
      simp only [List.length_cons]
      omega

theorem occursAtB_bound {pat s : List Char} {i : Nat} (hne : pat ≠ [])
    (h : occursAtB pat s i = true) : i + pat.length ≤ s.length := by
  have h1 := isPrefixOf_length_le pat (s.drop i) h
  rw [List.length_drop] at h1
  have h2 : 0 < pat.length := List.length_pos.mpr hne
  omega

theorem firstBelow_eq_none {p : Nat → Bool} :
    ∀ {n : Nat}, firstBelow p n = none → ∀ m, m < n → p m = false := by
  intro n
  induction n with
  | zero => intro _ m hm; exact absurd hm (Nat.not_lt_zero m)
  | succ n ih =>
    intro h m hm
    unfold firstBelow at h
    cases hfb : firstBelow p n with
    | some k => rw [hfb] at h; simp at h
    | none =>
      rw [hfb] at h
      by_cases hp : p n = true
      · rw [if_pos hp] at h; simp at h
      · have hpn : p n = false := by revert hp; cases p n <;> simp
        rcases Nat.lt_succ_iff_lt_or_eq.mp hm with h' | h'
        · exact ih hfb m h'
        · rw [h']; exact hpn

theorem firstBelow_eq_some {p : Nat → Bool} :
    ∀ {n k : Nat}, firstBelow p n = some k →
      p k = true ∧ k < n ∧ ∀ m, m < k → p m = false := by
  intro n
  induction n with
  | zero => intro k h; simp [firstBelow] at h
  | succ n ih =>
    intro k h
    unfold firstBelow at h
    cases hfb : firstBelow p n with
    | some k' =>
      rw [hfb] at h
      simp only [Option.some.injEq] at h
      obtain ⟨h1, h2, h3⟩ := ih hfb
      rw [← h]
      exact ⟨h1, by omega, h3⟩
    | none =>
      rw [hfb] at h
      by_cases hp : p n = true
      · rw [if_pos hp] at h
        simp only [Option.some.injEq] at h
        rw [← h]
        exact ⟨hp, Nat.lt_succ_self n, fun m hm => firstBelow_eq_none hfb m hm⟩
      · rw [if_neg hp] at h; simp at h

theorem lastBelow_eq_some {p : Nat → Bool} :
    ∀ {n k : Nat}, lastBelow p n = some k →
      p k = true ∧ k < n ∧ ∀ m, k < m → m < n → p m = false := by
  intro n
  induction n with
  | zero => intro k h; simp [lastBelow] at h
  | succ n ih =>
    intro k h
    unfold lastBelow at h
    by_cases hp : p n = true
    · rw [if_pos hp] at h
      simp only [Option.some.injEq] at h
      rw [← h]
      exact ⟨hp, Nat.lt_succ_self n, fun m h1 h2 => absurd h2 (by omega)⟩
    · rw [if_neg hp] at h
      obtain ⟨h1, h2, h3⟩ := ih h
      refine ⟨h1, by omega, fun m hkm hmn => ?_⟩
      by_cases hmn' : m < n
      · exact h3 m hkm hmn'
      · have : m = n := by omega
        rw [this]
        revert hp; cases p n <;> simp

theorem searchPair_nongreedy_spec {oT cT s : List Char} {i j : Nat}
    (h : searchPair oT cT false s = some (i, j)) :
    occursAtB cT s j = true ∧ i + oT.length ≤ j ∧
      ∀ j', occursAtB cT s j' = true → i + oT.length ≤ j' → j ≤ j' := by
  unfold searchPair at h
  cases h1 : firstBelow (occursAtB oT s) (s.length + 1) with
  | none => rw [h1] at h; simp at h
  | some i0 =>
    rw [h1] at h
    simp only [Bool.false_eq_true, if_false] at h
    cases h2 : firstBelow
        (fun j => occursAtB cT s j && decide (i0 + oT.length ≤ j)) (s.length + 1) with
    | none => rw [h2] at h; simp at h
    | some j0 =>
      rw [h2] at h
      simp only [Option.some.injEq, Prod.mk.injEq] at h
      obtain ⟨hi, hj⟩ := h
      rw [hi] at h2
      obtain ⟨hpj, _, hmin⟩ := firstBelow_eq_some h2
      rw [hj] at hpj hmin
      simp only [Bool.and_eq_true, decide_eq_true_eq] at hpj
      refine ⟨hpj.1, hpj.2, fun j' ho hle => ?_⟩
      by_contra hlt
      have : j' < j := by omega
      have := hmin j' this
      simp only [Bool.and_eq_true, decide_eq_true_eq] at this
      rw [ho] at this
      simp at this
      omega

theorem searchPair_greedy_spec {oT cT s : List Char} {i j : Nat} (hcne : cT ≠ [])
    (h : searchPair oT cT true s = some (i, j)) :
    occursAtB cT s j = true ∧ i + oT.length ≤ j ∧
      ∀ j', occursAtB cT s j' = true → i + oT.length ≤ j' → j' ≤ j := by
  unfold searchPair at h
  cases h1 : firstBelow (occursAtB oT s) (s.length + 1) with
  | none => rw [h1] at h; simp at h
  | some i0 =>
    rw [h1] at h
    simp only [if_true] at h
    cases h2 : lastBelow
        (fun j => occursAtB cT s j && decide (i0 + oT.length ≤ j)) (s.length + 1) with
    | none => rw [h2] at h; simp at h
    | some j0 =>
      rw [h2] at h
      simp only [Option.some.injEq, Prod.mk.injEq] at h
      obtain ⟨hi, hj⟩ := h
      rw [hi] at h2
      obtain ⟨hpj, _, hmax⟩ := lastBelow_eq_some h2
      rw [hj] at hpj hmax
      simp only [Bool.and_eq_true, decide_eq_true_eq] at hpj
      refine ⟨hpj.1, hpj.2, fun j' ho hle => ?_⟩
      by_contra hlt
      have hjj : j < j' := by omega
      have hb : j' < s.length + 1 := by
        have := occursAtB_bound hcne ho
        omega
      have := hmax j' hjj hb
      simp only [Bool.and_eq_true, decide_eq_true_eq] at this
      rw [ho] at this
      simp at this
      omega

/-! ### Claim theorems -/

/-- Claim C1, amended.  The command and code body spans are matched
non-greedily: the matched closing tag is the FIRST closing-tag occurrence
after the opening tag.  The finish body, however, is matched greedily just
like the browse body (the source regex is `<finish>.*</finish>`): the
matched closing tag is the LAST closing-tag occurrence, so for an input
with two finish pairs the matched span runs from the first opening tag to
the end of the last closing tag, not the shortest first pair. -/
theorem greedy_nongreedy_asymmetry :
    (∀ s i j, searchPair bashOpen bashClose false s = some (i, j) →
      occursAtB bashClose s j = true ∧ i + bashOpen.length ≤ j ∧
        ∀ j', occursAtB bashClose s j' = true → i + bashOpen.length ≤ j' → j ≤ j') ∧
    (∀ s i j, searchPair ipythonOpen ipythonClose false s = some (i, j) →
      occursAtB ipythonClose s j = true ∧ i + ipythonOpen.length ≤ j ∧
        ∀ j', occursAtB ipythonClose s j' = true → i + ipythonOpen.length ≤ j' → j ≤ j') ∧
    (∀ s i j, searchPair finishOpen finishClose true s = some (i, j) →
      occursAtB finishClose s j = true ∧ i + finishOpen.length ≤ j ∧
        ∀ j', occursAtB finishClose s j' = true → i + finishOpen.length ≤ j' → j' ≤ j) ∧
    (∀ s i j, searchPair browseOpen browseClose true s = some (i, j) →
      occursAtB browseClose s j = true ∧ i + browseOpen.length ≤ j ∧
        ∀ j', occursAtB browseClose s j' = true → i + browseOpen.length ≤ j' → j' ≤ j) :=
  ⟨fun _ _ _ h => searchPair_nongreedy_spec h,
   fun _ _ _ h => searchPair_nongreedy_spec h,
   fun _ _ _ h => searchPair_greedy_spec (by decide) h,
   fun _ _ _ h => searchPair_greedy_spec (by decide) h⟩

/-- Witness for C1: on the two-finish-pair input the greedy finish match
selects closing index 28 (the second `</finish>`), and the first closing
occurrence at index 9 is indeed bounded by it. -/
theorem greedy_nongreedy_asymmetry_witness :
    occursAtB finishClose sTwoFinish 9 = true ∧ (9 : Nat) ≤ 28 := by
  have h := greedy_nongreedy_asymmetry.2.2.1 sTwoFinish 0 28 (by decide)
  exact ⟨by decide, h.2.2 9 (by decide) (by decide)⟩

/-- Counterexample to C1 as stated: on an input with two finish tag pairs
the matched finish span is the whole greedy span from the first opening to
the last closing tag, not the first, shortest pair. -/
theorem finish_span_not_shortest :
    finishSpan sTwoFinish = some sTwoFinish ∧
    sTwoFinish ≠ chars "<finish>a</finish>" ∧
    classify [] sTwoFinish = Action.agentFinish [] := by decide

/-- Claim C2, amended.  `truncate_observation` is the identity when the
text fits.  For longer text and an EVEN `max_chars ≥ 2` the result is the
first `max_chars/2` characters, the fixed marker, and the last
`max_chars/2` characters, with total length `max_chars + len(marker)`.
(For odd `max_chars` the total is `max_chars - 1 + len(marker)` because
`max_chars // 2` floors, and for `max_chars ∈ {0, 1}` the Python slice
`observation[-0:]` reproduces the whole text after the marker.) -/
theorem truncate_observation_spec (s : List Char) (maxChars : Nat) :
    (s.length ≤ maxChars → truncate_observation s maxChars = s) ∧
    (maxChars < s.length → 2 ∣ maxChars → 2 ≤ maxChars →
      truncate_observation s maxChars =
        s.take (maxChars / 2) ++ markerChars ++ s.drop (s.length - maxChars / 2) ∧
      (truncate_observation s maxChars).length = maxChars + markerChars.length) := by
  constructor
  · intro h
    simp [truncate_observation, h]
  · intro h h2 h3
    have hnot : ¬ s.length ≤ maxChars := by omega
    have hhalf : maxChars / 2 ≠ 0 := by omega
    have heq : truncate_observation s maxChars =
        s.take (maxChars / 2) ++ markerChars ++ s.drop (s.length - maxChars / 2) := by
      simp [truncate_observation, hnot, pyLastSlice, hhalf]
    refine ⟨heq, ?_⟩
    rw [heq]
    simp only [List.length_append, List.length_take, List.length_drop]
    omega

/-- Witness for C2 at `s = "abcde"`, `max_chars = 4`. -/
theorem truncate_observation_spec_witness :
    truncate_observation (chars "abcde") 4 = chars "ab" ++ markerChars ++ chars "de" ∧
    (truncate_observation (chars "abcde") 4).length = 4 + markerChars.length := by
  have h := (truncate_observation_spec (chars "abcde") 4).2 (by decide) (by decide) (by decide)
  refine ⟨?_, h.2⟩
  rw [h.1]
  decide

/-- Counterexample to C2 as stated over EVERY `max_chars`: with the odd
bound 3 the result length is `2 + len(marker)`, and with the bound 0 the
whole text reappears after the marker, so the stated
`max_chars + len(marker)` total fails. -/
theorem truncate_length_claim_fails :
    3 < (chars "abcd").length ∧
    (truncate_observation (chars "abcd") 3).length ≠ 3 + markerChars.length ∧
    0 < (chars "ab").length ∧
    (truncate_observation (chars "ab") 0).length ≠ 0 + markerChars.length := by decide

/-- Claim C3, amended.  On every step that reaches the model call, the
character counter is incremented by the total length of the sent messages'
contents plus the length of the REPAIRED response text (`parse_response`
is applied before the counter update, so an appended closing tag is
counted). -/
theorem step_char_counter_spec (agent : CodeActSWEAgent)
    (llm : List Message → List (List Char) → List Char) (state : State)
    (h : wantsExit (getMessages agent state) = false) :
    (step agent llm state).2.numOfChars =
      state.numOfChars +
        ((((getMessages agent state).map (fun m => m.content.length)).sum : Nat) : Int) +
        (((parse_response (llm (getMessages agent state) stopWords)).length : Nat) : Int) := by
  simp [step, h]

/-- Witness for C3 on a concrete state, agent and model client. -/
theorem step_char_counter_spec_witness :
    (step agentA llmUnterminated stateEmpty).2.numOfChars =
      stateEmpty.numOfChars +
        ((((getMessages agentA stateEmpty).map (fun m => m.content.length)).sum : Nat) : Int) +
        (((parse_response (llmUnterminated (getMessages agentA stateEmpty) stopWords)).length : Nat) : Int) :=
  step_char_counter_spec agentA llmUnterminated stateEmpty (by decide)

/-- Counterexample to C3 as stated: when the model answer is an
unterminated command block, the counter update uses the repaired text, so
it is NOT the raw response length that is added. -/
theorem step_char_counter_raw_fails :
    (step agentA llmUnterminated stateEmpty).2.numOfChars ≠
      stateEmpty.numOfChars +
        ((((getMessages agentA stateEmpty).map (fun m => m.content.length)).sum : Nat) : Int) +
        (((llmUnterminated (getMessages agentA stateEmpty) stopWords).length : Nat) : Int) := by
  decide

/-- Claim C4.  If the latest user message of the assembled list strips to
`/exit`, `step` returns a bare `AgentFinishAction` and leaves the state
untouched, identically for EVERY model client: the quantification over
`llm` shows the model is never consulted. -/
theorem step_exit_shortcircuit (agent : CodeActSWEAgent) (state : State)
    (h : ∃ m, latestUserMessage (getMessages agent state) = some m ∧
      pyStrip m.content = chars "/exit")
    (llm : List Message → List (List Char) → List Char) :
    step agent llm state = (Action.agentFinish [], state) := by
  obtain ⟨m, hm, hs⟩ := h
  have hw : wantsExit (getMessages agent state) = true := by
    simp [wantsExit, hm, hs]
  simp [step, hw]

/-- Witness for C4: a history ending in a `/exit` user message finishes
without touching the state, under an arbitrary concrete client. -/
theorem step_exit_shortcircuit_witness :
    step agentA llmPlain stateExit = (Action.agentFinish [], stateExit) :=
  step_exit_shortcircuit agentA stateExit
    ⟨⟨Role.user, chars "/exit"⟩, by decide, by decide⟩ llmPlain

/-- Claim C5.  For each of the three executable tag kinds, when the
opening tag occurs and the closing tag does not, the repair appends the
matching closing tag; consequently the unterminated
`"<execute_bash>\nls -la"` classifies as a `CmdRunAction` with command
exactly `ls -la` (and empty thought). -/
theorem tag_repair_appends_closing :
    (∀ s, containsSub bashOpen s = true → containsSub bashClose s = false →
      repairStep bashOpen bashClose s = s ++ bashClose) ∧
    (∀ s, containsSub ipythonOpen s = true → containsSub ipythonClose s = false →
      repairStep ipythonOpen ipythonClose s = s ++ ipythonClose) ∧
    (∀ s, containsSub browseOpen s = true → containsSub browseClose s = false →
      repairStep browseOpen browseClose s = s ++ browseClose) ∧
    (∀ kernelInitCode, classifyFull kernelInitCode sUnterminated =
      Action.cmdRun (chars "ls -la") []) := by
  refine ⟨?_, ?_, ?_, ?_⟩
  · intro s h1 h2; simp [repairStep, h1, h2]
  · intro s h1 h2; simp [repairStep, h1, h2]
  · intro s h1 h2; simp [repairStep, h1, h2]
  · intro kernelInitCode; rfl

/-- Witness for C5: the bash repair fires on the unterminated input. -/
theorem tag_repair_appends_closing_witness :
    repairStep bashOpen bashClose sUnterminated = sUnterminated ++ bashClose :=
  tag_repair_appends_closing.1 sUnterminated (by decide) (by decide)

/-- Claim C6, amended.  The classifier acts on the FIRST (leftmost,
shortest) command tag pair: whenever that pair's inner text trims to
`exit`, classification yields a Finish action rather than a RunCommand —
either through the finish branch (when a finish pair is also present) or
through the exit alias.  A later command pair trimming to `exit` does not
trigger the alias when an earlier pair matches first. -/
theorem first_command_exit_alias (kernelInitCode s : List Char) (i j : Nat)
    (hb : searchPair bashOpen bashClose false s = some (i, j))
    (hx : pyStrip (slice s (i + bashOpen.length) j) = chars "exit") :
    (classify kernelInitCode s).isFinish = true := by
  cases hf : searchPair finishOpen finishClose true s with
  | some p =>
    obtain ⟨a, b⟩ := p
    simp [classify, hf, Action.isFinish]
  | none =>
    have hxx : pyStrip (pyStrip (slice s (i + bashOpen.length) j)) = chars "exit" := by
      rw [hx]; decide
    simp [classify, hf, hb, hxx, Action.isFinish]

/-- Witness for C6: `<execute_bash>exit</execute_bash>` classifies as
Finish. -/
theorem first_command_exit_alias_witness :
    (classify [] sExitBash).isFinish = true :=
  first_command_exit_alias [] sExitBash 0 18 (by decide) (by decide)

/-- Counterexample to C6 as stated: the text
`<execute_bash>ls</execute_bash><execute_bash>exit</execute_bash>`
contains a command tag pair whose inner text trims to exactly `exit` (the
second one), yet classification yields a RunCommand for the first pair,
not a Finish. -/
theorem exit_alias_not_universal :
    sTwoBash = chars "<execute_bash>ls</execute_bash>" ++ bashOpen ++ chars "exit" ++ bashClose ∧
    pyStrip (chars "exit") = chars "exit" ∧
    classifyFull [] sTwoBash =
      Action.cmdRun (chars "ls") (chars "<execute_bash>exit</execute_bash>") ∧
    (classifyFull [] sTwoBash).isFinish = false := by decide

/-- Claim C7.  Classification checks the finish pair first: whenever both
a finish tag pair and a command tag pair are present, the result is a
Finish action whose thought is the text with the matched finish span
removed (every occurrence replaced by the empty string, as `str.replace`
does — the span occurs once) and stripped. -/
theorem finish_priority_over_command (kernelInitCode s : List Char) (i j i' j' : Nat)
    (hf : searchPair finishOpen finishClose true s = some (i, j))
    (_hb : searchPair bashOpen bashClose false s = some (i', j')) :
    classify kernelInitCode s =
      Action.agentFinish
        (pyStrip (pyReplaceEmpty (slice s i (j + finishClose.length)) s)) := by
  simp [classify, hf]

/-- Witness for C7 on a text holding both a finish pair and a command
pair: the result is Finish and the thought is the rest of the text. -/
theorem finish_priority_over_command_witness :
    classify [] sFinishAndBash =
      Action.agentFinish (chars "t  <execute_bash>ls</execute_bash>") := by
  have h := finish_priority_over_command [] sFinishAndBash 2 14 24 40 (by decide) (by decide)
  rw [h]; decide

/-- Claim C8.  After assembling the base messages and the per-event
messages, if a latest user-role message exists: when its stripped content
is `/exit` the list is returned unchanged, otherwise that message's
content is extended with the reminder reporting
`max_iterations - iteration` remaining turns. -/
theorem history_reminder_spec (agent : CodeActSWEAgent) (state : State) (k : Nat)
    (hk : lastIdxWhere (fun m => decide (m.role = Role.user))
      (assembleMessages agent state) = some k) :
    (pyStrip ((assembleMessages agent state).getD k ⟨Role.user, []⟩).content = chars "/exit" →
      getMessages agent state = assembleMessages agent state) ∧
    (pyStrip ((assembleMessages agent state).getD k ⟨Role.user, []⟩).content ≠ chars "/exit" →
      getMessages agent state =
        (assembleMessages agent state).set k
          { (assembleMessages agent state).getD k ⟨Role.user, []⟩ with
            content := ((assembleMessages agent state).getD k ⟨Role.user, []⟩).content ++
              reminderText state }) := by
  constructor
  · intro h
    rw [List.getD_eq_getElem?_getD] at h
    simp [getMessages, hk, h]
  · intro h
    rw [List.getD_eq_getElem?_getD] at h
    simp [getMessages, hk, h]

/-- Witness for C8: last user message `fix the bug`, `iteration = 2`,
`max_iterations = 10` — the assembled last user message ends with the
reminder stating 8 turns remain. -/
theorem history_reminder_spec_witness :
    getMessages agentA stateReminder =
      [⟨Role.system, chars "SYS"⟩, ⟨Role.user, chars "EXAMPLE"⟩,
        ⟨Role.user, chars "fix the bug" ++
          chars "\n\nENVIRONMENT REMINDER: You have 8 turns left to complete the task."⟩] := by
  have h := (history_reminder_spec agentA stateReminder 2 (by decide)).2 (by decide)
  rw [h]; decide

/-- Claim C9, amended.  Classification is total by construction
(`classify` and `classifyFull` are total functions into `Action`), and for
every text with no finish tag pair and NO OCCURRENCE of a command, code,
or browse opening tag, the result is a plain `MessageAction` carrying the
input verbatim and awaiting a reply.  (The claim's weaker premise "no tag
pair" is not enough: a lone opening tag is repaired into a pair.) -/
theorem no_tags_fallback (kernelInitCode s : List Char)
    (hf : searchPair finishOpen finishClose true s = none)
    (hb : containsSub bashOpen s = false)
    (hi : containsSub ipythonOpen s = false)
    (hw : containsSub browseOpen s = false) :
    classifyFull kernelInitCode s = Action.message s true := by
  have hb' : firstBelow (occursAtB bashOpen s) (s.length + 1) = none := by
    revert hb; unfold containsSub
    cases firstBelow (occursAtB bashOpen s) (s.length + 1) <;> simp
  have hi' : firstBelow (occursAtB ipythonOpen s) (s.length + 1) = none := by
    revert hi; unfold containsSub
    cases firstBelow (occursAtB ipythonOpen s) (s.length + 1) <;> simp
  have hw' : firstBelow (occursAtB browseOpen s) (s.length + 1) = none := by
    revert hw; unfold containsSub
    cases firstBelow (occursAtB browseOpen s) (s.length + 1) <;> simp
  have hrep : parse_response s = s := by
    simp [parse_response, repairStep, hb, hi, hw]
  have hsb : searchPair bashOpen bashClose false s = none := by
    simp [searchPair, hb']
  have hsi : searchPair ipythonOpen ipythonClose false s = none := by
    simp [searchPair, hi']
  have hsw : searchPair browseOpen browseClose true s = none := by
    simp [searchPair, hw']
  simp [classifyFull, hrep, classify, hf, hsb, hsi, hsw]

/-- Witness for C9 on a tag-free text. -/
theorem no_tags_fallback_witness :
    classifyFull [] (chars "just chatting") = Action.message (chars "just chatting") true :=
  no_tags_fallback [] (chars "just chatting") (by decide) (by decide) (by decide) (by decide)

/-- Counterexample to C9 as stated: `<execute_bash>hi` contains no finish,
command, code or browse tag PAIR, yet tag repair turns it into a command
pair and classification yields a RunCommand, not a PlainMessage. -/
theorem lone_opening_not_plain_message :
    searchPair finishOpen finishClose true sLoneOpen = none ∧
    searchPair bashOpen bashClose false sLoneOpen = none ∧
    searchPair ipythonOpen ipythonClose false sLoneOpen = none ∧
    searchPair browseOpen browseClose true sLoneOpen = none ∧
    classifyFull [] sLoneOpen = Action.cmdRun (chars "hi") [] ∧
    classifyFull [] sLoneOpen ≠ Action.message sLoneOpen true := by decide

/-- Claim C10.  When the exit alias fires (no finish pair; the matched
command pair's body trims to `exit`), the Finish action is the bare
`AgentFinishAction()` with the default empty thought: surrounding text
outside the pair is discarded, unlike the finish-tag path which keeps the
remainder as the thought. -/
theorem exit_alias_discards_thought (kernelInitCode s : List Char) (i j : Nat)
    (hf : searchPair finishOpen finishClose true s = none)
    (hb : searchPair bashOpen bashClose false s = some (i, j))
    (hx : pyStrip (slice s (i + bashOpen.length) j) = chars "exit") :
    classify kernelInitCode s = Action.agentFinish [] := by
  have hxx : pyStrip (pyStrip (slice s (i + bashOpen.length) j)) = chars "exit" := by
    rw [hx]; decide
  simp [classify, hf, hb, hxx]

/-- Witness for C10: `ok <execute_bash> exit </execute_bash>` finishes
with an empty thought although the surrounding text `ok` would have been
the removal-based thought. -/
theorem exit_alias_discards_thought_witness :
    classify [] sExitThought = Action.agentFinish [] ∧
    pyStrip (pyReplaceEmpty (slice sExitThought 3 38) sExitThought) = chars "ok" :=
  ⟨exit_alias_discards_thought [] sExitThought 3 23 (by decide) (by decide) (by decide),
    by decide⟩

end OpenHands
